import Mathlib

/-!
Verification of the two scripts of the `stumpfworks-nas` apps-repository
template:

* `scripts/generate-registry.py` — scans plugin directories, loads each
  `plugin.json`, derives URLs and aggregates a sorted `registry.json`;
* `scripts/validate-plugins.py` — checks each `plugin.json` against a fixed
  rule set and exits non-zero iff an error was recorded.

The scripts operate on dynamically typed JSON data, so the embedding models
JSON values explicitly and gives each Python operation used by the scripts
(`dict.get`, `x[k]`, `k in x`, `len`, `int()`, `str.split`, iteration,
comparison `<`, truthiness) a faithful Lean counterpart.  Fallible Python
operations (those that can raise) return `Except String α`; an `Except.error`
models an uncaught Python exception propagating out of the function.
-/

/-- A JSON value as produced by Python's `json.load`.  Numbers are modelled as
integers (no manifest field the scripts inspect is a float).  `obj` models a
Python dict: `json.load` yields objects with distinct keys (later duplicates in
the JSON text overwrite earlier ones), so field lists are read with first-match
lookup. -/
inductive Json where
  | null
  | bool (b : Bool)
  | num (n : Int)
  | str (s : String)
  | arr (elems : List Json)
  | obj (fields : List (String × Json))

/-- Python truthiness (`not x`): `None`, `False`, `0`, `""`, `[]`, `{}` are
falsy. -/
def pyFalsy : Json → Bool
  | .null => true
  | .bool b => !b
  | .num n => n == 0
  | .str s => s.isEmpty
  | .arr xs => xs.isEmpty
  | .obj fs => fs.isEmpty

mutual

/-- Python `==` on JSON values: numeric equality identifies `bool` and `int`
(`True == 1`), lists compare elementwise, dicts compare fieldwise (field lists
here stand for dicts with distinct keys, in insertion order), and values of
unrelated types compare unequal without raising. -/
def pyEq : Json → Json → Bool
  | .null, .null => true
  | .bool a, .bool b => a == b
  | .bool a, .num b => (if a then (1 : Int) else 0) == b
  | .num a, .bool b => a == (if b then (1 : Int) else 0)
  | .num a, .num b => a == b
  | .str a, .str b => a == b
  | .arr a, .arr b => pyEqList a b
  | .obj a, .obj b => pyEqFields a b
  | _, _ => false

/-- Elementwise Python `==` of two JSON arrays. -/
def pyEqList : List Json → List Json → Bool
  | [], [] => true
  | x :: xs, y :: ys => pyEq x y && pyEqList xs ys
  | _, _ => false

/-- Fieldwise Python `==` of two JSON objects (dicts with distinct keys). -/
def pyEqFields : List (String × Json) → List (String × Json) → Bool
  | [], [] => true
  | (k, v) :: xs, (l, w) :: ys => k == l && pyEq v w && pyEqFields xs ys
  | _, _ => false

end

mutual

/-- Python `<` on JSON values.  Numbers and booleans are mutually comparable
(`bool` is an `int` subtype), strings compare lexicographically by code point,
lists compare lexicographically, and any other combination raises `TypeError`
(in particular `None` is comparable with nothing, including itself). -/
def pyLt : Json → Json → Except String Bool
  | .num a, .num b => .ok (decide (a < b))
  | .num a, .bool b => .ok (decide (a < (if b then (1 : Int) else 0)))
  | .bool a, .num b => .ok (decide ((if a then (1 : Int) else 0) < b))
  | .bool a, .bool b => .ok (decide ((if a then (1 : Int) else 0) < (if b then (1 : Int) else 0)))
  | .str a, .str b => .ok (decide (a < b))
  | .arr a, .arr b => pyListLt a b
  | _, _ => .error "TypeError: \x27<\x27 not supported between instances"

/-- Python `<` on lists: skip the longest common (by `==`) prefix, then compare
the first differing elements; a strict prefix is smaller. -/
def pyListLt : List Json → List Json → Except String Bool
  | [], [] => .ok false
  | [], _ :: _ => .ok true
  | _ :: _, [] => .ok false
  | x :: xs, y :: ys => if pyEq x y then pyListLt xs ys else pyLt x y

end

mutual

/-- Python `repr` of a JSON value (as used by `str` on containers).  String
quoting is modelled with plain single quotes (repr's escape rules for quotes
inside the string are not reproduced; no manifest message depends on them). -/
def pyRepr : Json → String
  | .null => "None"
  | .bool true => "True"
  | .bool false => "False"
  | .num n => toString n
  | .str s => "\x27" ++ s ++ "\x27"
  | .arr xs => "[" ++ pyReprList xs ++ "]"
  | .obj fs => "\x7b" ++ pyReprFields fs ++ "\x7d"

/-- Comma-separated `repr` of list elements. -/
def pyReprList : List Json → String
  | [] => ""
  | [x] => pyRepr x
  | x :: xs => pyRepr x ++ ", " ++ pyReprList xs

/-- Comma-separated `repr` of dict fields. -/
def pyReprFields : List (String × Json) → String
  | [] => ""
  | [(k, v)] => "\x27" ++ k ++ "\x27: " ++ pyRepr v
  | (k, v) :: fs => "\x27" ++ k ++ "\x27: " ++ pyRepr v ++ ", " ++ pyReprFields fs

end

/-- Python `str()` as used in f-string interpolation: strings unchanged,
everything else via `repr`. -/
def pyStr : Json → String
  | .str s => s
  | j => pyRepr j

/-- Whether `pat` occurs as a contiguous sublist of `l` (Python substring
containment). -/
def subListOf (pat : List Char) : List Char → Bool
  | [] => pat.isEmpty
  | x :: xs => pat.isPrefixOf (x :: xs) || subListOf pat xs

/-- Python `k in s` for strings: substring containment. -/
def strContainsSub (s pat : String) : Bool :=
  subListOf pat.data s.data

/-- Whether a dict (field list) has key `k` (Python `k in d`). -/
def hasKeyB (fs : List (String × Json)) (k : String) : Bool :=
  fs.any (fun p => p.1 == k)

/-- Python `k in x` for a string key `k`: key membership for dicts, substring
for strings, element membership (via Python `==`) for lists; raises `TypeError`
on non-containers. -/
def pyIn (k : String) : Json → Except String Bool
  | .obj fs => .ok (hasKeyB fs k)
  | .str s => .ok (strContainsSub s k)
  | .arr xs => .ok (xs.any (fun x => pyEq (Json.str k) x))
  | _ => .error "TypeError: argument is not iterable"

/-- Python `x[k]` for a string key: dict indexing (`KeyError` when absent);
`TypeError` on any other value. -/
def pyGetItem (j : Json) (k : String) : Except String Json :=
  match j with
  | .obj fs =>
    match fs.lookup k with
    | some v => .ok v
    | none => .error ("KeyError: " ++ k)
  | _ => .error "TypeError: indices must be integers"

/-- Python `len()`: length of a string (in code points), list or dict; raises
`TypeError` otherwise. -/
def pyLen : Json → Except String Nat
  | .str s => .ok s.length
  | .arr xs => .ok xs.length
  | .obj fs => .ok fs.length
  | _ => .error "TypeError: object has no len()"

/-- Python iteration (as consumed by `list.extend`): a list yields its
elements, a string its one-character strings, a dict its keys; anything else
raises `TypeError`. -/
def pyIter : Json → Except String (List Json)
  | .arr xs => .ok xs
  | .str s => .ok (s.data.map (fun c => Json.str (String.mk [c])))
  | .obj fs => .ok (fs.map (fun p => Json.str p.1))
  | _ => .error "TypeError: object is not iterable"

/-- Python `value.get(k, d)` where `value` may not be a dict: returns the
stored value (even `None`) when the key is present, the default when absent,
and raises `AttributeError` when `value` is not a dict. -/
def dictGetD (j : Json) (k : String) (d : Json) : Except String Json :=
  match j with
  | .obj fs => .ok ((fs.lookup k).getD d)
  | _ => .error "AttributeError: object has no attribute get"

/-- `d.get(k)` on a known dict: the stored value, or `None` when absent. -/
def jget (fs : List (String × Json)) (k : String) : Json :=
  (fs.lookup k).getD Json.null

/-- `d.get(k, default)` on a known dict. -/
def jgetD (fs : List (String × Json)) (k : String) (d : Json) : Json :=
  (fs.lookup k).getD d

/-- `d[k]` on a known dict whose key is present (callers guard with
`hasKeyB`); absent keys read as `null` but are never reached. -/
def jIndex (fs : List (String × Json)) (k : String) : Json :=
  (fs.lookup k).getD Json.null

/-- Python `s.split('.')` semantics for a single-character separator on a char
list: always returns one (possibly empty) segment more than the number of
separators. -/
def splitChars (c : Char) : List Char → List (List Char)
  | [] => [[]]
  | x :: xs =>
    let r := splitChars c xs
    if x == c then [] :: r
    else
      match r with
      | g :: gs => (x :: g) :: gs
      | [] => [[x]]

/-- Python `s.split('.')`. -/
def pySplitDot (s : String) : List String :=
  (splitChars '.' s.data).map String.mk

/-- Python `str.strip()` restricted to ASCII whitespace (the version strings
the validator sees are ASCII). -/
def pyStripWs (cs : List Char) : List Char :=
  ((cs.dropWhile Char.isWhitespace).reverse.dropWhile Char.isWhitespace).reverse

/-- After an initial digit: digits optionally separated by single underscores
(the grammar Python's `int()` accepts after the sign). -/
def digitsUndAux : List Char → Bool
  | [] => true
  | '_' :: rest =>
    match rest with
    | c :: rest2 => c.isDigit && digitsUndAux rest2
    | [] => false
  | c :: rest => c.isDigit && digitsUndAux rest

/-- A digit string as accepted by Python `int()` after stripping sign:
nonempty, digits with single underscores strictly between digits. -/
def digitsUnd : List Char → Bool
  | [] => false
  | c :: rest => c.isDigit && digitsUndAux rest

/-- Whether Python `int(s)` succeeds: optional surrounding whitespace, an
optional `+`/`-` sign, then digits with optional single underscores between
them.  (Python also accepts non-ASCII decimal digits; the manifests in scope
are ASCII.) -/
def pyIntOk (s : String) : Bool :=
  let t := pyStripWs s.data
  match t with
  | '+' :: r => digitsUnd r
  | '-' :: r => digitsUnd r
  | r => digitsUnd r

/-- Value of a digits-with-underscores string. -/
def digitsValAux (acc : Nat) : List Char → Nat
  | [] => acc
  | c :: cs =>
    if c == '_' then digitsValAux acc cs
    else digitsValAux (acc * 10 + (c.toNat - '0'.toNat)) cs

/-- Python `int(s)` as a partial function: `some n` when the parse succeeds. -/
def pyIntVal (s : String) : Option Int :=
  if pyIntOk s then
    match pyStripWs s.data with
    | '-' :: r => some (-(digitsValAux 0 r : Int))
    | '+' :: r => some ((digitsValAux 0 r : Int))
    | r => some ((digitsValAux 0 r : Int))
  else none

/-! ## `scripts/generate-registry.py` -/

/-- The fixed repository base URL (`REPO_URL`). -/
def REPO_URL : String := "https://github.com/Stumpf-works/stumpfworks-nas-apps"

/-- `f"{REPO_URL}/tree/main/plugins/{plugin_dir}"`. -/
def repoBrowseUrl (slug : String) : String :=
  REPO_URL ++ "/tree/main/plugins/" ++ slug

/-- `f"{REPO_URL}/releases/download/{plugin_dir}-v{version}/{plugin_dir}-v{version}.tar.gz"`. -/
def releaseDownloadUrl (slug version : String) : String :=
  REPO_URL ++ "/releases/download/" ++ slug ++ "-v" ++ version ++ "/" ++ slug ++
    "-v" ++ version ++ ".tar.gz"

/-- A registry entry as built by `load_plugin_manifest`: the manifest's fields
with defaults applied, plus the two derived URL strings.  Fields keep the JSON
values the Python dict holds (the script applies no type checks). -/
structure Entry where
  id : Json
  name : Json
  version : Json
  author : Json
  description : Json
  icon : Json
  category : Json
  repository_url : String
  download_url : String
  homepage : Json
  min_nas_version : Json
  require_docker : Json
  required_ports : Json
  screenshots : List Json
  tags : List Json

/-- Body of `load_plugin_manifest` once `data` is known to be a dict.  In the
source the first operation on `data` is `data.get('id')`, which raises
`AttributeError` unless `data` is a dict; every later plain dict read is then
total, so only the chained `.get` on `links`/`requires` (which raises when that
field holds a non-dict) and the iteration of `data['tags']` can raise. -/
def load_obj (plugin_dir : String) (fields : List (String × Json)) : Except String Entry := do
  let plugin_id := jget fields "id"
  let version := jgetD fields "version" (Json.str "1.0.0")
  let repository_url := repoBrowseUrl plugin_dir
  let download_url := releaseDownloadUrl plugin_dir (pyStr version)
  let homepage ← dictGetD (jgetD fields "links" (Json.obj [])) "homepage"
    (Json.str repository_url)
  let min_nas_version ← dictGetD (jgetD fields "requires" (Json.obj [])) "minNasVersion"
    (Json.str "0.1.0")
  let require_docker ← dictGetD (jgetD fields "requires" (Json.obj [])) "docker"
    (Json.bool false)
  let required_ports ← dictGetD (jgetD fields "requires" (Json.obj [])) "ports"
    (Json.arr [])
  let declaredTags ← if hasKeyB fields "tags" then pyIter (jIndex fields "tags") else pure []
  .ok
    { id := plugin_id
      name := jget fields "name"
      version := version
      author := jget fields "author"
      description := jget fields "description"
      icon := jgetD fields "icon" (Json.str "🔌")
      category := jgetD fields "category" (Json.str "utilities")
      repository_url := repository_url
      download_url := download_url
      homepage := homepage
      min_nas_version := min_nas_version
      require_docker := require_docker
      required_ports := required_ports
      screenshots := []
      tags := jgetD fields "category" (Json.str "utilities") :: declaredTags }

/-- `load_plugin_manifest(manifest_file)`: the parse outcome of the file's
text (`json.load` raises on malformed JSON, modelled by the `Except` input),
then the entry construction. -/
def load_plugin_manifest (plugin_dir : String) (parsed : Except String Json) :
    Except String Entry := do
  let data ← parsed
  match data with
  | .obj fields => load_obj plugin_dir fields
  | _ => .error "AttributeError: object has no attribute get"

/-- The loading loop of `generate_registry`: each manifest is loaded inside
`try/except`; successes accumulate as entries, failures as printed `❌ Error
loading …` diagnostics, in directory order. -/
def loadAll : List (String × Except String Json) → List Entry × List String
  | [] => ([], [])
  | (dir, parsed) :: rest =>
    let r := loadAll rest
    match load_plugin_manifest dir parsed with
    | .ok e => (e :: r.1, r.2)
    | .error msg =>
      (r.1, ("❌ Error loading plugins/" ++ dir ++ "/plugin.json: " ++ msg) :: r.2)

/-- The sort key order `plugins.sort(key=lambda p: p['name'])` uses: entry `p`
may stay before `q` when `q`'s name is not strictly below `p`'s (Python sorts
ascending with `<`; on incomparable names this reads as `true`, but such lists
are rejected before sorting, see `pySortByName`). -/
def entryLe (p q : Entry) : Bool :=
  !((pyLt q.name p.name).toOption.getD false)

/-- Stable insertion of an entry into a sorted-by-name list. -/
def insertSorted (x : Entry) : List Entry → List Entry
  | [] => [x]
  | y :: ys => if entryLe x y then x :: y :: ys else y :: insertSorted x ys

/-- Stable sort by name (any stable sort agrees with Python's Timsort on a
total preorder of keys). -/
def sortEntries : List Entry → List Entry
  | [] => []
  | x :: xs => insertSorted x (sortEntries xs)

/-- Whether every pair of entry names is comparable under Python `<`. -/
def allNamesComparable (ps : List Entry) : Bool :=
  ps.all (fun p => ps.all (fun q => (pyLt p.name q.name).isOk))

/-- `plugins.sort(key=lambda p: p['name'])`: no comparison happens on a list of
at most one entry; otherwise the model sorts when all name pairs are
comparable and raises `TypeError` when some pair is not (CPython raises on the
subset of comparisons Timsort actually performs, which includes every adjacent
pair; on all inputs considered here the two coincide). -/
def pySortByName (ps : List Entry) : Except String (List Entry) :=
  if ps.length ≤ 1 then .ok ps
  else if allNamesComparable ps then .ok (sortEntries ps)
  else .error "TypeError: \x27<\x27 not supported between instances"

/-- The registry document: fixed schema version, generation timestamp,
repository base URL and the sorted entries. -/
structure Registry where
  version : String
  updated : String
  repository : String
  plugins : List Entry

/-- `generate_registry()` over the manifests found on disk (one
`(directory-slug, parse outcome)` per plugin directory containing a
`plugin.json`, in scan order).  `now` is the `datetime.utcnow()` timestamp.
Returns the registry document that is serialized to `registry.json` together
with the per-plugin failure diagnostics; `Except.error` models an uncaught
exception (in which case nothing is written — the file write happens after the
sort). -/
def generate_registry (now : String) (manifests : List (String × Except String Json)) :
    Except String (Registry × List String) :=
  match pySortByName (loadAll manifests).1 with
  | .ok sorted =>
    .ok ({ version := "1.0.0", updated := now, repository := REPO_URL, plugins := sorted },
      (loadAll manifests).2)
  | .error e => .error e

/-- Blank out the `updated` timestamp of a generation outcome (for comparing
two runs). -/
def stripUpdated : Except String (Registry × List String) → Except String (Registry × List String)
  | .ok (r, d) => .ok ({ r with updated := "" }, d)
  | .error e => .error e

/-- The claim C2's sortedness property: successive entries carry string names
in ascending (case-sensitive, code-point) order. -/
def namesAscending (l : List Entry) : Prop :=
  List.Pairwise (fun p q => ∃ a b, p.name = Json.str a ∧ q.name = Json.str b ∧ a ≤ b) l

/-! ## `scripts/validate-plugins.py` -/

/-- `REQUIRED_FIELDS`. -/
def REQUIRED_FIELDS : List String :=
  ["id", "name", "version", "author", "description", "icon", "category"]

/-- `VALID_CATEGORIES`. -/
def VALID_CATEGORIES : List String :=
  ["storage", "media", "communication", "development", "monitoring", "networking",
   "productivity", "security", "utilities"]

/-- Body of `validate_semver` on an actual string: at least three
`.`-separated segments whose first three are accepted by `int()` (the
`ValueError` of a failing `int` is caught and turns into `False`). -/
def semverB (v : String) : Bool :=
  let parts := pySplitDot v
  if parts.length < 3 then false
  else (parts.take 3).all pyIntOk

/-- `validate_semver(version)`: `version.split('.')` raises `AttributeError`
when the value is not a string. -/
def validate_semver : Json → Except String Bool
  | .str v => .ok (semverB v)
  | _ => .error "AttributeError: object has no attribute split"

/-- `validate_plugin_id(plugin_id)`: falsy values are invalid; otherwise the
value must be a string (else `.split` raises) with at least three
`.`-separated segments. -/
def validate_plugin_id (plugin_id : Json) : Except String Bool :=
  if pyFalsy plugin_id then .ok false
  else
    match plugin_id with
    | .str s => .ok (decide ((pySplitDot s).length ≥ 3))
    | _ => .error "AttributeError: object has no attribute split"

/-- `f"Missing required field: {field}"`. -/
def missingFieldMsg (f : String) : String := "Missing required field: " ++ f

/-- `f"Invalid plugin ID format: {data['id']} (should be reverse domain notation)"`. -/
def idErrorMsg (v : Json) : String :=
  "Invalid plugin ID format: " ++ pyStr v ++ " (should be reverse domain notation)"

/-- `f"Version {data['version']} doesn't follow semantic versioning"`. -/
def versionWarningMsg (v : Json) : String :=
  "Version " ++ pyStr v ++ " doesn\x27t follow semantic versioning"

/-- `f"Invalid category: {data['category']}. Must be one of: {', '.join(VALID_CATEGORIES)}"`. -/
def categoryErrorMsg (v : Json) : String :=
  "Invalid category: " ++ pyStr v ++ ". Must be one of: " ++
    String.intercalate ", " VALID_CATEGORIES

/-- `f"Description is very short ({desc_len} characters)"`. -/
def descShortMsg (n : Nat) : String :=
  "Description is very short (" ++ toString n ++ " characters)"

/-- `f"Description is very long ({desc_len} characters)"`. -/
def descLongMsg (n : Nat) : String :=
  "Description is very long (" ++ toString n ++ " characters)"

/-- The fixed author warning text. -/
def authorWarnMsg : String :=
  "Author field should not contain email (use links section instead)"

/-- The fixed name-too-short error text. -/
def nameErrorMsg : String := "Plugin name is too short"

/-- The required-field loop: one `Missing required field` error per absent
field, in `REQUIRED_FIELDS` order (`field not in data` can raise on
non-container data). -/
def requiredFieldErrors (data : Json) : List String → Except String (List String)
  | [] => .ok []
  | f :: fs => do
    let present ← pyIn f data
    let rest ← requiredFieldErrors data fs
    pure (if present then rest else missingFieldMsg f :: rest)

/-- `if 'id' in data and not validate_plugin_id(data['id']): errors.append(…)`. -/
def idRuleErrors (data : Json) : Except String (List String) := do
  let present ← pyIn "id" data
  if present then
    let v ← pyGetItem data "id"
    let ok ← validate_plugin_id v
    pure (if ok then [] else [idErrorMsg v])
  else pure []

/-- `if 'version' in data and not validate_semver(data['version']): warnings.append(…)`. -/
def versionRuleWarnings (data : Json) : Except String (List String) := do
  let present ← pyIn "version" data
  if present then
    let v ← pyGetItem data "version"
    let ok ← validate_semver v
    pure (if ok then [] else [versionWarningMsg v])
  else pure []

/-- Whether `data['category']` is a member of `VALID_CATEGORIES` under Python
`==` (a non-string value is simply not a member; no exception). -/
def catInSetB (v : Json) : Bool :=
  VALID_CATEGORIES.any (fun c => pyEq v (Json.str c))

/-- `if 'category' in data and data['category'] not in VALID_CATEGORIES: errors.append(…)`. -/
def categoryRuleErrors (data : Json) : Except String (List String) := do
  let present ← pyIn "category" data
  if present then
    let v ← pyGetItem data "category"
    pure (if catInSetB v then [] else [categoryErrorMsg v])
  else pure []

/-- The description-length rule: `len(data['description'])` outside `[20,200]`
warns (a `len`-less value raises). -/
def descriptionRuleWarnings (data : Json) : Except String (List String) := do
  let present ← pyIn "description" data
  if present then
    let v ← pyGetItem data "description"
    let n ← pyLen v
    if n < 20 then pure [descShortMsg n]
    else if n > 200 then pure [descLongMsg n]
    else pure []
  else pure []

/-- `if 'name' in data and len(data['name']) < 3: errors.append(…)`. -/
def nameRuleErrors (data : Json) : Except String (List String) := do
  let present ← pyIn "name" data
  if present then
    let v ← pyGetItem data "name"
    let n ← pyLen v
    pure (if n < 3 then [nameErrorMsg] else [])
  else pure []

/-- `if 'author' in data and '@' in data['author']: warnings.append(…)`. -/
def authorRuleWarnings (data : Json) : Except String (List String) := do
  let present ← pyIn "author" data
  if present then
    let v ← pyGetItem data "author"
    let at_ ← pyIn "@" v
    pure (if at_ then [authorWarnMsg] else [])
  else pure []

/-- `validate_plugin_manifest(manifest_file)`: a parse failure short-circuits
to a single `Invalid JSON` error; otherwise the rules run in source order and
their errors/warnings concatenate in that order.  The outer `Except.error`
models an exception the function does not catch (only parse/read errors are
caught). -/
def validate_plugin_manifest (parsed : Except String Json) :
    Except String (List String × List String) :=
  match parsed with
  | .error e => .ok (["Invalid JSON: " ++ e], [])
  | .ok data => do
    let missing ← requiredFieldErrors data REQUIRED_FIELDS
    let idErrs ← idRuleErrors data
    let verWarns ← versionRuleWarnings data
    let catErrs ← categoryRuleErrors data
    let descWarns ← descriptionRuleWarnings data
    let nameErrs ← nameRuleErrors data
    let authorWarns ← authorRuleWarnings data
    .ok (missing ++ idErrs ++ catErrs ++ nameErrs, verWarns ++ descWarns ++ authorWarns)

/-- One entry of the plugins root as `main` iterates it: the directory-entry
name, whether it is a directory, and (for directories) the parse outcome of
its `plugin.json` — `none` when the file does not exist. -/
structure DirEntry where
  name : String
  isDir : Bool
  manifest : Option (Except String Json)

/-- The accumulation loop of `main`: non-directories are skipped, a missing
`plugin.json` appends a per-directory warning, and each manifest's errors and
warnings extend the global lists in iteration order.  An uncaught exception
from `validate_plugin_manifest` aborts the whole run. -/
def collectAll : List DirEntry → Except String (List String × List String)
  | [] => .ok ([], [])
  | d :: rest =>
    if d.isDir then
      match d.manifest with
      | none => do
        let (es, ws) ← collectAll rest
        .ok (es, (d.name ++ ": Missing plugin.json") :: ws)
      | some parsed => do
        let (e1, w1) ← validate_plugin_manifest parsed
        let (es, ws) ← collectAll rest
        .ok (e1 ++ es, w1 ++ ws)
    else collectAll rest

/-- `main()`: runs the accumulation pass and calls `sys.exit(1)` when any
error was recorded, `sys.exit(0)` otherwise.  The returned `Nat` is the
process exit code; `Except.error` models an uncaught exception. -/
def validator_main (dirs : List DirEntry) : Except String Nat := do
  let (es, _) ← collectAll dirs
  if es.isEmpty then pure 0 else pure 1

/-! ## Spec-side definitions (for refinement comparison only) -/

/-- Follows the spec's words for claim C4 (not the source): a version segment
"parseable as a non-negative integer" — `int()` succeeds and the value is
`≥ 0`. -/
def specNonNegIntOk (s : String) : Bool :=
  match pyIntVal s with
  | some n => decide (0 ≤ n)
  | none => false

/-- Follows the spec's words for claim C4 (not the source): the version string
"splits on `.` into at least 3 segments whose first three each parse as
non-negative integers". -/
def specVersionRule (v : String) : Bool :=
  decide ((pySplitDot v).length ≥ 3) && ((pySplitDot v).take 3).all specNonNegIntOk

/-! ## Basic dictionary lemmas -/

theorem lookup_some_hasKeyB (fs : List (String × Json)) (k : String) (v : Json)
    (h : fs.lookup k = some v) : hasKeyB fs k = true := by
  induction fs with
  | nil => simp [List.lookup] at h
  | cons p rest ih =>
    obtain ⟨k', v'⟩ := p
    cases hk : (k == k') with
    | true =>
      have : k = k' := by simpa [beq_iff_eq] using hk
      simp [hasKeyB, this]
    | false =>
      simp only [List.lookup_cons, hk] at h
      have := ih h
      simp [hasKeyB] at this ⊢
      exact Or.inr this

theorem lookup_none_hasKeyB (fs : List (String × Json)) (k : String)
    (h : fs.lookup k = none) : hasKeyB fs k = false := by
  induction fs with
  | nil => simp [hasKeyB]
  | cons p rest ih =>
    obtain ⟨k', v'⟩ := p
    cases hk : (k == k') with
    | true => simp only [List.lookup_cons, hk] at h; cases h
    | false =>
      simp only [List.lookup_cons, hk] at h
      have := ih h
      have hk' : ¬ k' = k := by
        intro e; subst e; simp at hk
      simp [hasKeyB, hk'] at this ⊢
      exact this

theorem hasKeyB_lookup (fs : List (String × Json)) (k : String)
    (h : hasKeyB fs k = true) : ∃ v, fs.lookup k = some v := by
  cases hl : fs.lookup k with
  | some v => exact ⟨v, rfl⟩
  | none => rw [lookup_none_hasKeyB fs k hl] at h; cases h

theorem pyGetItem_obj (fs : List (String × Json)) (k : String) (v : Json)
    (h : fs.lookup k = some v) : pyGetItem (Json.obj fs) k = .ok v := by
  simp [pyGetItem, h]

/-! ## String-distinctness helpers

The validator's messages are compared for (in)equality below; two messages
built from different literal prefixes are distinguished by a character at a
position inside both prefixes. -/

theorem string_ne_of_get? (s t : String) (i : Nat)
    (h : s.data.get? i ≠ t.data.get? i) : s ≠ t := by
  intro e; exact h (by rw [e])

theorem get?_append2 (p a : String) (i : Nat) (h : i < p.data.length) :
    (p ++ a).data.get? i = p.data.get? i := by
  rw [String.data_append]
  exact List.get?_append h

theorem get?_append3 (p a b : String) (i : Nat) (h : i < p.data.length) :
    (p ++ a ++ b).data.get? i = p.data.get? i := by
  rw [String.data_append, String.data_append, List.append_assoc]
  exact List.get?_append h

/-! ## Inversion of a successful manifest load -/

theorem load_obj_ok (dir : String) (fields : List (String × Json)) (e : Entry)
    (h : load_obj dir fields = Except.ok e) :
    e.version = jgetD fields "version" (Json.str "1.0.0") ∧
    e.name = jget fields "name" ∧
    e.category = jgetD fields "category" (Json.str "utilities") ∧
    e.repository_url = repoBrowseUrl dir ∧
    e.download_url = releaseDownloadUrl dir (pyStr (jgetD fields "version" (Json.str "1.0.0"))) ∧
    e.screenshots = [] ∧
    (∀ lf, jgetD fields "links" (Json.obj []) = Json.obj lf →
      e.homepage = (lf.lookup "homepage").getD (Json.str (repoBrowseUrl dir))) ∧
    (hasKeyB fields "tags" = false → e.tags = [e.category]) ∧
    (∀ ts, hasKeyB fields "tags" = true → jIndex fields "tags" = Json.arr ts →
      e.tags = e.category :: ts) := by
  rw [load_obj] at h
  cases hlinks : jgetD fields "links" (Json.obj []) <;> rw [hlinks] at h <;>
    simp only [dictGetD, Except.bind, bind] at h <;> try exact Except.noConfusion h
  case obj lf =>
    cases hreq : jgetD fields "requires" (Json.obj []) <;> rw [hreq] at h <;>
      simp only [dictGetD, Except.bind, bind] at h <;> try exact Except.noConfusion h
    case obj rf =>
      cases htags : hasKeyB fields "tags" <;> rw [htags] at h <;>
        simp only [Bool.false_eq_true, if_false, eq_self_iff_true, if_true,
          Except.bind, bind, pure, Except.pure] at h
      case false =>
        rw [Except.ok.injEq] at h
        subst h
        refine ⟨rfl, rfl, rfl, rfl, rfl, rfl, ?_, ?_, ?_⟩
        · intro lf' hlf'
          cases hlf'
          rfl
        · intro _; rfl
        · intro ts htrue _; cases htrue
      case true =>
        cases hiter : jIndex fields "tags" <;> rw [hiter] at h <;>
          simp only [pyIter, Except.bind, bind] at h <;> try exact Except.noConfusion h
        all_goals {
          rw [Except.ok.injEq] at h
          subst h
          refine ⟨rfl, rfl, rfl, rfl, rfl, rfl, ?_, ?_, ?_⟩
          · intro lf' hlf'
            cases hlf'
            rfl
          · intro hfalse; cases hfalse
          · intro ts _ hts
            cases hts <;> rfl
        }

theorem load_manifest_ok (dir : String) (data : Json) (e : Entry)
    (h : load_plugin_manifest dir (Except.ok data) = Except.ok e) :
    ∃ fields, data = Json.obj fields ∧ load_obj dir fields = Except.ok e := by
  cases data <;> simp only [load_plugin_manifest, Except.bind, bind] at h <;>
    first
    | exact Except.noConfusion h
    | exact ⟨_, rfl, h⟩

/-! ## Lemmas about the loading loop -/

theorem loadAll_length (ms : List (String × Except String Json)) :
    (loadAll ms).1.length + (loadAll ms).2.length = ms.length := by
  induction ms with
  | nil => rfl
  | cons p rest ih =>
    obtain ⟨dir, parsed⟩ := p
    cases hload : load_plugin_manifest dir parsed with
    | ok e =>
      simp only [loadAll, hload, List.length_cons]
      omega
    | error msg =>
      simp only [loadAll, hload, List.length_cons]
      omega

theorem loadAll_all_ok (ms : List (String × Except String Json))
    (h : ∀ p ∈ ms, ∃ e, load_plugin_manifest p.1 p.2 = Except.ok e) :
    (loadAll ms).2 = [] ∧ (loadAll ms).1.length = ms.length ∧
    ∀ e ∈ (loadAll ms).1, ∃ p ∈ ms, load_plugin_manifest p.1 p.2 = Except.ok e := by
  induction ms with
  | nil => exact ⟨rfl, rfl, by simp [loadAll]⟩
  | cons p rest ih =>
    obtain ⟨dir, parsed⟩ := p
    obtain ⟨e0, he0⟩ := h (dir, parsed) (List.mem_cons_self _ _)
    have hrest := ih (fun q hq => h q (List.mem_cons_of_mem _ hq))
    simp only [loadAll, he0]
    refine ⟨hrest.1, by simp [hrest.2.1], ?_⟩
    intro e he
    rcases List.mem_cons.mp he with rfl | hmem
    · exact ⟨(dir, parsed), List.mem_cons_self _ _, he0⟩
    · obtain ⟨q, hq, hload⟩ := hrest.2.2 e hmem
      exact ⟨q, List.mem_cons_of_mem _ hq, hload⟩

theorem loadAll_error_mem (ms : List (String × Except String Json)) (dir : String)
    (parsed : Except String Json) (msg : String)
    (hmem : (dir, parsed) ∈ ms) (herr : load_plugin_manifest dir parsed = Except.error msg) :
    ("❌ Error loading plugins/" ++ dir ++ "/plugin.json: " ++ msg) ∈ (loadAll ms).2 := by
  induction ms with
  | nil => cases hmem
  | cons p rest ih =>
    rcases List.mem_cons.mp hmem with heq | hmem'
    · rw [← heq]
      simp only [loadAll, herr]
      exact List.mem_cons_self _ _
    · obtain ⟨d2, p2⟩ := p
      cases hl : load_plugin_manifest d2 p2 with
      | ok e => simpa only [loadAll, hl] using ih hmem'
      | error m2 =>
        simp only [loadAll, hl]
        exact List.mem_cons_of_mem _ (ih hmem')

/-! ## Lemmas about the sort -/

theorem mem_insertSorted (x y : Entry) (l : List Entry) :
    y ∈ insertSorted x l ↔ y = x ∨ y ∈ l := by
  induction l with
  | nil => simp [insertSorted]
  | cons z zs ih =>
    rw [insertSorted]
    cases hle : entryLe x z with
    | true =>
      simp only [if_true, eq_self_iff_true]
      constructor
      · intro hy
        rcases List.mem_cons.mp hy with rfl | hy'
        · exact Or.inl rfl
        · exact Or.inr hy'
      · intro hy
        rcases hy with rfl | hy'
        · exact List.mem_cons_self _ _
        · exact List.mem_cons_of_mem _ hy'
    | false =>
      simp only [Bool.false_eq_true, if_false]
      constructor
      · intro hy
        rcases List.mem_cons.mp hy with rfl | hy'
        · exact Or.inr (List.mem_cons_self _ _)
        · rcases (ih).mp hy' with rfl | hy2
          · exact Or.inl rfl
          · exact Or.inr (List.mem_cons_of_mem _ hy2)
      · intro hy
        rcases hy with rfl | hy'
        · exact List.mem_cons_of_mem _ ((ih).mpr (Or.inl rfl))
        · rcases List.mem_cons.mp hy' with rfl | hy2
          · exact List.mem_cons_self _ _
          · exact List.mem_cons_of_mem _ ((ih).mpr (Or.inr hy2))

theorem length_insertSorted (x : Entry) (l : List Entry) :
    (insertSorted x l).length = l.length + 1 := by
  induction l with
  | nil => rfl
  | cons z zs ih =>
    rw [insertSorted]
    cases hle : entryLe x z with
    | true => simp
    | false => simp [ih]

theorem length_sortEntries (l : List Entry) : (sortEntries l).length = l.length := by
  induction l with
  | nil => rfl
  | cons x xs ih => rw [sortEntries, length_insertSorted, ih]; rfl

theorem mem_sortEntries (y : Entry) (l : List Entry) : y ∈ sortEntries l ↔ y ∈ l := by
  induction l with
  | nil => simp [sortEntries]
  | cons x xs ih =>
    rw [sortEntries, mem_insertSorted]
    simp [ih]

theorem entryLe_of_names (p q : Entry) (a b : String) (hp : p.name = Json.str a)
    (hq : q.name = Json.str b) : entryLe p q = true ↔ a ≤ b := by
  rw [entryLe, hp, hq]
  simp only [pyLt, Except.toOption, Option.getD_some, Bool.not_eq_true',
    decide_eq_false_iff_not, not_lt]

theorem entryLe_false_of_names (p q : Entry) (a b : String) (hp : p.name = Json.str a)
    (hq : q.name = Json.str b) (h : entryLe p q = false) : b ≤ a := by
  have : ¬ (entryLe p q = true) := by rw [h]; simp
  rw [entryLe_of_names p q a b hp hq] at this
  exact le_of_lt (lt_of_not_le this)

theorem sorted_insertSorted (x : Entry) (l : List Entry)
    (hx : ∃ s, x.name = Json.str s)
    (hl : ∀ y ∈ l, ∃ s, y.name = Json.str s)
    (hp : l.Pairwise (fun p q => ∀ a b, p.name = Json.str a → q.name = Json.str b → a ≤ b)) :
    (insertSorted x l).Pairwise
      (fun p q => ∀ a b, p.name = Json.str a → q.name = Json.str b → a ≤ b) := by
  induction l with
  | nil => simp [insertSorted]
  | cons z zs ih =>
    obtain ⟨a, ha⟩ := hx
    obtain ⟨b, hb⟩ := hl z (List.mem_cons_self _ _)
    rw [insertSorted]
    rcases List.pairwise_cons.mp hp with ⟨hz, hzs⟩
    cases hle : entryLe x z with
    | true =>
      rw [if_pos rfl]
      have hxz : a ≤ b := (entryLe_of_names x z a b ha hb).mp hle
      refine List.pairwise_cons.mpr ⟨?_, hp⟩
      intro y hy
      rcases List.mem_cons.mp hy with rfl | hmem
      · intro a' b' ha' hb'
        rw [ha] at ha'; rw [hb] at hb'
        cases ha'; cases hb'
        exact hxz
      · intro a' b' ha' hb'
        obtain ⟨c, hc⟩ := hl y (List.mem_cons_of_mem _ hmem)
        have hbc : b ≤ c := hz y hmem b c hb hc
        rw [ha] at ha'; cases ha'
        rw [hc] at hb'; cases hb'
        exact le_trans hxz hbc
    | false =>
      simp only [Bool.false_eq_true, if_false]
      have hzx : b ≤ a := entryLe_false_of_names x z a b ha hb hle
      refine List.pairwise_cons.mpr ⟨?_, ?_⟩
      · intro y hy
        rcases (mem_insertSorted x y zs).mp hy with rfl | hmem
        · intro a' b' ha' hb'
          rw [hb] at ha'; cases ha'
          rw [ha] at hb'; cases hb'
          exact hzx
        · exact hz y hmem
      · exact ih (fun y hy => hl y (List.mem_cons_of_mem _ hy)) hzs

theorem sorted_sortEntries (l : List Entry)
    (hl : ∀ y ∈ l, ∃ s, y.name = Json.str s) :
    (sortEntries l).Pairwise
      (fun p q => ∀ a b, p.name = Json.str a → q.name = Json.str b → a ≤ b) := by
  induction l with
  | nil => simp [sortEntries]
  | cons x xs ih =>
    rw [sortEntries]
    exact sorted_insertSorted x (sortEntries xs)
      (hl x (List.mem_cons_self _ _))
      (fun y hy => hl y (List.mem_cons_of_mem _ ((mem_sortEntries y xs).mp hy)))
      (ih (fun y hy => hl y (List.mem_cons_of_mem _ hy)))

theorem namesAscending_sortEntries (l : List Entry)
    (hl : ∀ y ∈ l, ∃ s, y.name = Json.str s) : namesAscending (sortEntries l) := by
  refine List.Pairwise.imp_of_mem ?_ (sorted_sortEntries l hl)
  intro p q hpmem hqmem hr
  obtain ⟨a, ha⟩ := hl p ((mem_sortEntries p l).mp hpmem)
  obtain ⟨b, hb⟩ := hl q ((mem_sortEntries q l).mp hqmem)
  exact ⟨a, b, ha, hb, hr a b ha hb⟩

theorem allNamesComparable_of_str (ps : List Entry)
    (h : ∀ p ∈ ps, ∃ s, p.name = Json.str s) : allNamesComparable ps = true := by
  rw [allNamesComparable, List.all_eq_true]
  intro p hp
  rw [List.all_eq_true]
  intro q hq
  obtain ⟨a, ha⟩ := h p hp
  obtain ⟨b, hb⟩ := h q hq
  rw [ha, hb]
  rfl

theorem pySortByName_eq (ps : List Entry)
    (h : allNamesComparable ps = true ∨ ps.length ≤ 1) :
    pySortByName ps = Except.ok (sortEntries ps) := by
  rw [pySortByName]
  by_cases hlen : ps.length ≤ 1
  · rw [if_pos hlen]
    rcases ps with _ | ⟨x, _ | ⟨y, rest⟩⟩
    · rfl
    · rfl
    · exact absurd hlen (by simp)
  · rw [if_neg hlen]
    rcases h with hc | hc
    · rw [hc]
      simp
    · exact absurd hc hlen

/-! ## Lemmas about the validator -/

theorem validate_obj_parts (data : Json) (es ws : List String)
    (h : validate_plugin_manifest (Except.ok data) = Except.ok (es, ws)) :
    ∃ me ie vw ce dw nme aw,
      requiredFieldErrors data REQUIRED_FIELDS = Except.ok me ∧
      idRuleErrors data = Except.ok ie ∧
      versionRuleWarnings data = Except.ok vw ∧
      categoryRuleErrors data = Except.ok ce ∧
      descriptionRuleWarnings data = Except.ok dw ∧
      nameRuleErrors data = Except.ok nme ∧
      authorRuleWarnings data = Except.ok aw ∧
      es = me ++ ie ++ ce ++ nme ∧ ws = vw ++ dw ++ aw := by
  simp only [validate_plugin_manifest] at h
  cases h1 : requiredFieldErrors data REQUIRED_FIELDS <;> rw [h1] at h <;>
    simp only [Except.bind, bind] at h <;> try exact Except.noConfusion h
  cases h2 : idRuleErrors data <;> rw [h2] at h <;>
    simp only [Except.bind, bind] at h <;> try exact Except.noConfusion h
  cases h3 : versionRuleWarnings data <;> rw [h3] at h <;>
    simp only [Except.bind, bind] at h <;> try exact Except.noConfusion h
  cases h4 : categoryRuleErrors data <;> rw [h4] at h <;>
    simp only [Except.bind, bind] at h <;> try exact Except.noConfusion h
  cases h5 : descriptionRuleWarnings data <;> rw [h5] at h <;>
    simp only [Except.bind, bind] at h <;> try exact Except.noConfusion h
  cases h6 : nameRuleErrors data <;> rw [h6] at h <;>
    simp only [Except.bind, bind] at h <;> try exact Except.noConfusion h
  cases h7 : authorRuleWarnings data <;> rw [h7] at h <;>
    simp only [Except.bind, bind] at h <;> try exact Except.noConfusion h
  rw [Except.ok.injEq, Prod.mk.injEq] at h
  exact ⟨_, _, _, _, _, _, _, rfl, rfl, rfl, rfl, rfl, rfl, rfl, h.1.symm, h.2.symm⟩

theorem requiredFieldErrors_obj (fields : List (String × Json)) (fs : List String) :
    ∃ me, requiredFieldErrors (Json.obj fields) fs = Except.ok me ∧
      ∀ x ∈ me, ∃ f, x = missingFieldMsg f := by
  induction fs with
  | nil => exact ⟨[], rfl, by simp⟩
  | cons f rest ih =>
    obtain ⟨me, hme, hshape⟩ := ih
    cases hk : hasKeyB fields f with
    | false =>
      refine ⟨missingFieldMsg f :: me, ?_, ?_⟩
      · simp only [requiredFieldErrors, pyIn, hk, Except.bind, bind, hme, pure, Except.pure,
          Bool.false_eq_true, if_false]
      · intro x hx
        rcases List.mem_cons.mp hx with rfl | hx'
        · exact ⟨f, rfl⟩
        · exact hshape x hx'
    | true =>
      refine ⟨me, ?_, hshape⟩
      simp only [requiredFieldErrors, pyIn, hk, Except.bind, bind, hme, pure, Except.pure,
        eq_self_iff_true, if_true]

theorem idRuleErrors_obj_shape (fields : List (String × Json)) (ie : List String)
    (h : idRuleErrors (Json.obj fields) = Except.ok ie) :
    ie = [] ∨ ∃ w, ie = [idErrorMsg w] := by
  simp only [idRuleErrors, pyIn, Except.bind, bind] at h
  cases hk : hasKeyB fields "id" <;> rw [hk] at h <;>
    simp only [Bool.false_eq_true, if_false, eq_self_iff_true, if_true, pure, Except.pure] at h
  case false => exact Or.inl (Except.ok.inj h).symm
  case true =>
    obtain ⟨v, hv⟩ := hasKeyB_lookup fields "id" hk
    rw [pyGetItem_obj fields "id" v hv] at h
    simp only [Except.bind, bind] at h
    cases hval : validate_plugin_id v <;> rw [hval] at h <;>
      simp only [Except.bind, bind, pure, Except.pure] at h <;> try exact Except.noConfusion h
    rename_i b
    cases b with
    | true => exact Or.inl (by simpa using (Except.ok.inj h).symm)
    | false => exact Or.inr ⟨v, by simpa using (Except.ok.inj h).symm⟩

theorem versionRuleWarnings_str (fields : List (String × Json)) (v : String)
    (hv : fields.lookup "version" = some (Json.str v)) :
    versionRuleWarnings (Json.obj fields) =
      Except.ok (if semverB v then [] else [versionWarningMsg (Json.str v)]) := by
  have hk := lookup_some_hasKeyB fields "version" _ hv
  simp only [versionRuleWarnings, pyIn, hk, Except.bind, bind, eq_self_iff_true, if_true]
  rw [pyGetItem_obj fields "version" _ hv]
  simp only [Except.bind, bind, validate_semver, pure, Except.pure]

theorem versionRuleWarnings_obj_shape (fields : List (String × Json)) (vw : List String)
    (h : versionRuleWarnings (Json.obj fields) = Except.ok vw) :
    vw = [] ∨ ∃ w, vw = [versionWarningMsg w] := by
  simp only [versionRuleWarnings, pyIn, Except.bind, bind] at h
  cases hk : hasKeyB fields "version" <;> rw [hk] at h <;>
    simp only [Bool.false_eq_true, if_false, eq_self_iff_true, if_true, pure, Except.pure] at h
  case false => exact Or.inl (Except.ok.inj h).symm
  case true =>
    obtain ⟨v, hv⟩ := hasKeyB_lookup fields "version" hk
    rw [pyGetItem_obj fields "version" v hv] at h
    simp only [Except.bind, bind] at h
    cases hval : validate_semver v <;> rw [hval] at h <;>
      simp only [Except.bind, bind, pure, Except.pure] at h <;> try exact Except.noConfusion h
    rename_i b
    cases b with
    | true => exact Or.inl (by simpa using (Except.ok.inj h).symm)
    | false => exact Or.inr ⟨v, by simpa using (Except.ok.inj h).symm⟩

theorem categoryRuleErrors_lookup (fields : List (String × Json)) (v : Json)
    (hv : fields.lookup "category" = some v) :
    categoryRuleErrors (Json.obj fields) =
      Except.ok (if catInSetB v then [] else [categoryErrorMsg v]) := by
  have hk := lookup_some_hasKeyB fields "category" _ hv
  simp only [categoryRuleErrors, pyIn, hk, Except.bind, bind, eq_self_iff_true, if_true]
  rw [pyGetItem_obj fields "category" _ hv]
  simp only [Except.bind, bind, pure, Except.pure]

theorem categoryRuleErrors_obj_shape (fields : List (String × Json)) (ce : List String)
    (h : categoryRuleErrors (Json.obj fields) = Except.ok ce) :
    ce = [] ∨ ∃ w, ce = [categoryErrorMsg w] := by
  simp only [categoryRuleErrors, pyIn, Except.bind, bind] at h
  cases hk : hasKeyB fields "category" <;> rw [hk] at h <;>
    simp only [Bool.false_eq_true, if_false, eq_self_iff_true, if_true, pure, Except.pure] at h
  case false => exact Or.inl (Except.ok.inj h).symm
  case true =>
    obtain ⟨v, hv⟩ := hasKeyB_lookup fields "category" hk
    rw [pyGetItem_obj fields "category" v hv] at h
    simp only [Except.bind, bind, pure, Except.pure] at h
    cases hc : catInSetB v <;> rw [hc] at h <;>
      simp only [Bool.false_eq_true, if_false, eq_self_iff_true, if_true] at h
    · exact Or.inr ⟨v, (Except.ok.inj h).symm⟩
    · exact Or.inl (Except.ok.inj h).symm

theorem descriptionRuleWarnings_obj_shape (fields : List (String × Json)) (dw : List String)
    (h : descriptionRuleWarnings (Json.obj fields) = Except.ok dw) :
    dw = [] ∨ (∃ n, dw = [descShortMsg n]) ∨ (∃ n, dw = [descLongMsg n]) := by
  simp only [descriptionRuleWarnings, pyIn, Except.bind, bind] at h
  cases hk : hasKeyB fields "description" <;> rw [hk] at h <;>
    simp only [Bool.false_eq_true, if_false, eq_self_iff_true, if_true, pure, Except.pure] at h
  case false => exact Or.inl (Except.ok.inj h).symm
  case true =>
    obtain ⟨v, hv⟩ := hasKeyB_lookup fields "description" hk
    rw [pyGetItem_obj fields "description" v hv] at h
    simp only [Except.bind, bind] at h
    cases hlen : pyLen v <;> rw [hlen] at h <;>
      simp only [Except.bind, bind, pure, Except.pure] at h <;> try exact Except.noConfusion h
    rename_i n
    by_cases h20 : n < 20
    · rw [if_pos h20] at h
      exact Or.inr (Or.inl ⟨n, (Except.ok.inj h).symm⟩)
    · rw [if_neg h20] at h
      by_cases h200 : n > 200
      · rw [if_pos h200] at h
        exact Or.inr (Or.inr ⟨n, (Except.ok.inj h).symm⟩)
      · rw [if_neg h200] at h
        exact Or.inl (Except.ok.inj h).symm

theorem nameRuleErrors_obj_shape (fields : List (String × Json)) (nme : List String)
    (h : nameRuleErrors (Json.obj fields) = Except.ok nme) :
    nme = [] ∨ nme = [nameErrorMsg] := by
  simp only [nameRuleErrors, pyIn, Except.bind, bind] at h
  cases hk : hasKeyB fields "name" <;> rw [hk] at h <;>
    simp only [Bool.false_eq_true, if_false, eq_self_iff_true, if_true, pure, Except.pure] at h
  case false => exact Or.inl (Except.ok.inj h).symm
  case true =>
    obtain ⟨v, hv⟩ := hasKeyB_lookup fields "name" hk
    rw [pyGetItem_obj fields "name" v hv] at h
    simp only [Except.bind, bind] at h
    cases hlen : pyLen v <;> rw [hlen] at h <;>
      simp only [Except.bind, bind, pure, Except.pure] at h <;> try exact Except.noConfusion h
    rename_i n
    by_cases h3 : n < 3
    · rw [if_pos h3] at h
      exact Or.inr (Except.ok.inj h).symm
    · rw [if_neg h3] at h
      exact Or.inl (Except.ok.inj h).symm

theorem authorRuleWarnings_obj_shape (fields : List (String × Json)) (aw : List String)
    (h : authorRuleWarnings (Json.obj fields) = Except.ok aw) :
    aw = [] ∨ aw = [authorWarnMsg] := by
  simp only [authorRuleWarnings, Except.bind, bind] at h
  rw [show pyIn "author" (Json.obj fields) = Except.ok (hasKeyB fields "author") from rfl] at h
  cases hk : hasKeyB fields "author" <;> rw [hk] at h <;>
    simp only [Bool.false_eq_true, if_false, eq_self_iff_true, if_true, pure, Except.pure] at h
  case false => exact Or.inl (Except.ok.inj h).symm
  case true =>
    obtain ⟨v, hv⟩ := hasKeyB_lookup fields "author" hk
    rw [pyGetItem_obj fields "author" v hv] at h
    simp only [Except.bind, bind] at h
    cases hat : pyIn "@" v <;> rw [hat] at h <;>
      simp only [Except.bind, bind, pure, Except.pure] at h <;> try exact Except.noConfusion h
    rename_i b
    cases b with
    | true => exact Or.inr (by simpa using (Except.ok.inj h).symm)
    | false => exact Or.inl (by simpa using (Except.ok.inj h).symm)

/-! ## The validator messages are pairwise distinguishable -/

theorem lt_length_append (s t : String) (i : Nat) (h : i < s.data.length) :
    i < (s ++ t).data.length := by
  rw [String.data_append, List.length_append]
  omega

theorem get?_append4 (p a b c : String) (i : Nat) (h : i < p.data.length) :
    (p ++ a ++ b ++ c).data.get? i = p.data.get? i := by
  rw [get?_append2 _ _ i (lt_length_append _ _ i (lt_length_append _ _ i h)),
    get?_append2 _ _ i (lt_length_append _ _ i h), get?_append2 _ _ i h]

theorem vw_ne_missing (v : Json) (f : String) : versionWarningMsg v ≠ missingFieldMsg f := by
  apply string_ne_of_get? _ _ 0
  rw [versionWarningMsg, missingFieldMsg, get?_append3 _ _ _ 0 (by decide),
    get?_append2 _ _ 0 (by decide)]
  decide

theorem vw_ne_idErr (v w : Json) : versionWarningMsg v ≠ idErrorMsg w := by
  apply string_ne_of_get? _ _ 0
  rw [versionWarningMsg, idErrorMsg, get?_append3 _ _ _ 0 (by decide),
    get?_append3 _ _ _ 0 (by decide)]
  decide

theorem vw_ne_catErr (v w : Json) : versionWarningMsg v ≠ categoryErrorMsg w := by
  apply string_ne_of_get? _ _ 0
  rw [versionWarningMsg, categoryErrorMsg, get?_append3 _ _ _ 0 (by decide),
    get?_append4 _ _ _ _ 0 (by decide)]
  decide

theorem vw_ne_nameErr (v : Json) : versionWarningMsg v ≠ nameErrorMsg := by
  apply string_ne_of_get? _ _ 0
  rw [versionWarningMsg, nameErrorMsg, get?_append3 _ _ _ 0 (by decide)]
  decide

theorem vw_ne_descShort (v : Json) (n : Nat) : versionWarningMsg v ≠ descShortMsg n := by
  apply string_ne_of_get? _ _ 0
  rw [versionWarningMsg, descShortMsg, get?_append3 _ _ _ 0 (by decide),
    get?_append3 _ _ _ 0 (by decide)]
  decide

theorem vw_ne_descLong (v : Json) (n : Nat) : versionWarningMsg v ≠ descLongMsg n := by
  apply string_ne_of_get? _ _ 0
  rw [versionWarningMsg, descLongMsg, get?_append3 _ _ _ 0 (by decide),
    get?_append3 _ _ _ 0 (by decide)]
  decide

theorem vw_ne_author (v : Json) : versionWarningMsg v ≠ authorWarnMsg := by
  apply string_ne_of_get? _ _ 0
  rw [versionWarningMsg, authorWarnMsg, get?_append3 _ _ _ 0 (by decide)]
  decide

theorem ce_ne_missing (v : Json) (f : String) : categoryErrorMsg v ≠ missingFieldMsg f := by
  apply string_ne_of_get? _ _ 0
  rw [categoryErrorMsg, missingFieldMsg, get?_append4 _ _ _ _ 0 (by decide),
    get?_append2 _ _ 0 (by decide)]
  decide

theorem ce_ne_idErr (v w : Json) : categoryErrorMsg v ≠ idErrorMsg w := by
  apply string_ne_of_get? _ _ 8
  rw [categoryErrorMsg, idErrorMsg, get?_append4 _ _ _ _ 8 (by decide),
    get?_append3 _ _ _ 8 (by decide)]
  decide

theorem ce_ne_nameErr (v : Json) : categoryErrorMsg v ≠ nameErrorMsg := by
  apply string_ne_of_get? _ _ 0
  rw [categoryErrorMsg, nameErrorMsg, get?_append4 _ _ _ _ 0 (by decide)]
  decide

theorem ce_ne_vw (v w : Json) : categoryErrorMsg v ≠ versionWarningMsg w :=
  fun h => vw_ne_catErr w v h.symm

theorem ce_ne_descShort (v : Json) (n : Nat) : categoryErrorMsg v ≠ descShortMsg n := by
  apply string_ne_of_get? _ _ 0
  rw [categoryErrorMsg, descShortMsg, get?_append4 _ _ _ _ 0 (by decide),
    get?_append3 _ _ _ 0 (by decide)]
  decide

theorem ce_ne_descLong (v : Json) (n : Nat) : categoryErrorMsg v ≠ descLongMsg n := by
  apply string_ne_of_get? _ _ 0
  rw [categoryErrorMsg, descLongMsg, get?_append4 _ _ _ _ 0 (by decide),
    get?_append3 _ _ _ 0 (by decide)]
  decide

theorem ce_ne_author (v : Json) : categoryErrorMsg v ≠ authorWarnMsg := by
  apply string_ne_of_get? _ _ 0
  rw [categoryErrorMsg, authorWarnMsg, get?_append4 _ _ _ _ 0 (by decide)]
  decide

/-! ## Lemmas about the validator's accumulation pass -/

theorem validator_main_eq (dirs : List DirEntry) (es ws : List String)
    (h : collectAll dirs = Except.ok (es, ws)) :
    validator_main dirs = Except.ok (if es.isEmpty then 0 else 1) := by
  simp only [validator_main, h, Except.bind, bind]
  cases es <;> simp [List.isEmpty, pure, Except.pure]

theorem collectAll_err_mem (dirs : List DirEntry) (nm : String) (parsed : Except String Json)
    (e1 w1 es ws : List String) (x : String)
    (hd : DirEntry.mk nm true (some parsed) ∈ dirs)
    (hval : validate_plugin_manifest parsed = Except.ok (e1, w1)) (hx : x ∈ e1)
    (hall : collectAll dirs = Except.ok (es, ws)) : x ∈ es := by
  induction dirs generalizing es ws with
  | nil => cases hd
  | cons d0 rest ih =>
    rcases List.mem_cons.mp hd with heq | hmem
    · rw [← heq] at hall
      simp only [collectAll, hval, Except.bind, bind, eq_self_iff_true, if_true] at hall
      cases hrest : collectAll rest <;> rw [hrest] at hall <;>
        simp only [Except.bind, bind, pure, Except.pure, eq_self_iff_true, if_true] at hall <;>
        try exact Except.noConfusion hall
      rename_i p
      obtain ⟨es2, ws2⟩ := p
      rw [Except.ok.injEq, Prod.mk.injEq] at hall
      rw [← hall.1]
      exact List.mem_append.mpr (Or.inl hx)
    · cases hdir : d0.isDir with
      | false =>
        simp only [collectAll, hdir, Bool.false_eq_true, if_false] at hall
        exact ih _ _ hmem hall
      | true =>
        cases hman : d0.manifest with
        | none =>
          simp only [collectAll, hdir, hman, eq_self_iff_true, if_true, Except.bind, bind] at hall
          cases hrest : collectAll rest <;> rw [hrest] at hall <;>
            simp only [Except.bind, bind, pure, Except.pure] at hall <;>
            try exact Except.noConfusion hall
          rename_i p
          obtain ⟨es2, ws2⟩ := p
          rw [Except.ok.injEq, Prod.mk.injEq] at hall
          rw [← hall.1]
          exact ih _ _ hmem hrest
        | some p0 =>
          simp only [collectAll, hdir, hman, eq_self_iff_true, if_true, Except.bind, bind] at hall
          cases hv0 : validate_plugin_manifest p0 <;> rw [hv0] at hall <;>
            simp only [Except.bind, bind, pure, Except.pure] at hall <;>
            try exact Except.noConfusion hall
          rename_i q
          obtain ⟨a, b⟩ := q
          cases hrest : collectAll rest <;> rw [hrest] at hall <;>
            simp only [Except.bind, bind, pure, Except.pure] at hall <;>
            try exact Except.noConfusion hall
          rename_i p
          obtain ⟨es2, ws2⟩ := p
          rw [Except.ok.injEq, Prod.mk.injEq] at hall
          rw [← hall.1]
          exact List.mem_append.mpr (Or.inr (ih _ _ hmem hrest))

theorem load_manifest_parsed_ok (dir : String) (parsed : Except String Json) (e : Entry)
    (h : load_plugin_manifest dir parsed = Except.ok e) :
    ∃ fields, parsed = Except.ok (Json.obj fields) ∧ load_obj dir fields = Except.ok e := by
  cases parsed with
  | error msg =>
    simp only [load_plugin_manifest, Except.bind, bind] at h
    exact Except.noConfusion h
  | ok data =>
    obtain ⟨fields, hdf, hobj⟩ := load_manifest_ok dir data e h
    exact ⟨fields, by rw [hdf], hobj⟩

/-! ## The claims -/

/-- C6: running the generator twice over an unchanged manifest set yields
identical outcomes — the same diagnostics and registry documents equal in
every field — except for the `updated` timestamp, the only output that
depends on the generation time. -/
theorem generate_idempotent_mod_updated (t1 t2 : String)
    (ms : List (String × Except String Json)) :
    stripUpdated (generate_registry t1 ms) = stripUpdated (generate_registry t2 ms) := by
  rw [generate_registry, generate_registry]
  cases pySortByName (loadAll ms).1 <;> rfl

/-- C3: a completed validation pass exits with code 1 exactly when at least
one error was recorded across all plugin directories, and with code 0 exactly
when none was — warnings alone never fail the run. -/
theorem validator_exit_iff_errors (dirs : List DirEntry) (es ws : List String)
    (h : collectAll dirs = Except.ok (es, ws)) :
    (validator_main dirs = Except.ok 1 ↔ es ≠ []) ∧
    (validator_main dirs = Except.ok 0 ↔ es = []) := by
  have hm := validator_main_eq dirs es ws h
  cases es with
  | nil => rw [hm]; simp
  | cons a l => rw [hm]; simp [List.isEmpty]

/-- C3 witness: a concrete single-plugin run whose only diagnostic is a
version warning exits 0. -/
theorem validator_exit_iff_errors_witness :
    validator_main [DirEntry.mk "tool" true (some (Except.ok (Json.obj
      [("id", Json.str "com.acme.tool"), ("name", Json.str "Tool"),
       ("version", Json.str "not-a-version"), ("author", Json.str "Acme"),
       ("description", Json.str "A quite long description here"),
       ("icon", Json.str "T"), ("category", Json.str "utilities")])))] = Except.ok 0 :=
  (validator_exit_iff_errors
    [DirEntry.mk "tool" true (some (Except.ok (Json.obj
      [("id", Json.str "com.acme.tool"), ("name", Json.str "Tool"),
       ("version", Json.str "not-a-version"), ("author", Json.str "Acme"),
       ("description", Json.str "A quite long description here"),
       ("icon", Json.str "T"), ("category", Json.str "utilities")])))]
    [] [versionWarningMsg (Json.str "not-a-version")] rfl).2.mpr rfl

/-- C10: a directory whose `plugin.json` exists but is not well-formed JSON
contributes exactly one `Invalid JSON` error (carrying the parse message) and
no warnings — none of the field rules run on it — and any completed overall
run containing such a directory exits 1. -/
theorem invalid_json_one_error (msg : String) (dirs : List DirEntry) (nm : String)
    (es ws : List String)
    (hmem : DirEntry.mk nm true (some (Except.error msg)) ∈ dirs)
    (hall : collectAll dirs = Except.ok (es, ws)) :
    validate_plugin_manifest (Except.error msg) = Except.ok (["Invalid JSON: " ++ msg], []) ∧
    validator_main dirs = Except.ok 1 := by
  refine ⟨rfl, ?_⟩
  have hx : ("Invalid JSON: " ++ msg) ∈ es :=
    collectAll_err_mem dirs nm (Except.error msg) _ _ es ws _ hmem rfl
      (List.mem_cons_self _ _) hall
  rw [validator_main_eq dirs es ws hall]
  cases es with
  | nil => cases hx
  | cons a l => simp [List.isEmpty]

/-- C10 witness: a run over one bad-JSON directory records the single
`Invalid JSON` error and exits 1. -/
theorem invalid_json_one_error_witness :
    validate_plugin_manifest (Except.error "Expecting value: line 1 column 1 (char 0)") =
      Except.ok (["Invalid JSON: Expecting value: line 1 column 1 (char 0)"], []) ∧
    validator_main [DirEntry.mk "broken" true (some (Except.error
      "Expecting value: line 1 column 1 (char 0)"))] = Except.ok 1 :=
  invalid_json_one_error "Expecting value: line 1 column 1 (char 0)"
    [DirEntry.mk "broken" true (some (Except.error "Expecting value: line 1 column 1 (char 0)"))]
    "broken" ["Invalid JSON: Expecting value: line 1 column 1 (char 0)"] []
    (List.mem_cons_self _ _) rfl

/-- C8: a manifest without a `version` field is loaded with the default
version string "1.0.0", which is also what the derived download URL embeds as
its version component. -/
theorem default_version_in_urls (dir : String) (fields : List (String × Json)) (e : Entry)
    (hv : fields.lookup "version" = none)
    (h : load_plugin_manifest dir (Except.ok (Json.obj fields)) = Except.ok e) :
    e.version = Json.str "1.0.0" ∧ e.download_url = releaseDownloadUrl dir "1.0.0" := by
  obtain ⟨fields2, heq, hobj⟩ := load_manifest_ok dir _ e h
  cases heq
  obtain ⟨hver, _, _, _, hurl, _, _, _, _⟩ := load_obj_ok dir fields e hobj
  constructor
  · rw [hver]
    simp [jgetD, hv]
  · rw [hurl]
    simp [jgetD, hv, pyStr]

/-- C8 witness: a concrete version-less manifest gets version "1.0.0" and the
matching download URL. -/
theorem default_version_in_urls_witness :
    ∃ e, load_plugin_manifest "myplugin"
        (Except.ok (Json.obj [("name", Json.str "My")])) = Except.ok e ∧
      e.version = Json.str "1.0.0" ∧
      e.download_url = releaseDownloadUrl "myplugin" "1.0.0" :=
  ⟨_, rfl, default_version_in_urls "myplugin" [("name", Json.str "My")] _ rfl rfl⟩

/-- C9: when a manifest has no `links.homepage` — whether `links` is a dict
without that key or absent entirely — the entry's homepage defaults to the
repository browse URL of that plugin's slug. -/
theorem homepage_defaults_to_repo (dir : String) (fields : List (String × Json)) (e : Entry)
    (hl : fields.lookup "links" = none ∨
      ∃ lf, fields.lookup "links" = some (Json.obj lf) ∧ lf.lookup "homepage" = none)
    (h : load_plugin_manifest dir (Except.ok (Json.obj fields)) = Except.ok e) :
    e.homepage = Json.str (repoBrowseUrl dir) := by
  obtain ⟨fields2, heq, hobj⟩ := load_manifest_ok dir _ e h
  cases heq
  obtain ⟨_, _, _, _, _, _, hhome, _, _⟩ := load_obj_ok dir fields e hobj
  rcases hl with hnone | ⟨lf, hsome, hnohome⟩
  · have hh := hhome [] (by simp [jgetD, hnone])
    simpa using hh
  · have hh := hhome lf (by simp [jgetD, hsome])
    rw [hh, hnohome]
    rfl

/-- C9 witness: a concrete manifest whose `links` dict lacks `homepage`
defaults to the browse URL. -/
theorem homepage_defaults_to_repo_witness :
    ∃ e, load_plugin_manifest "tool"
        (Except.ok (Json.obj [("links", Json.obj [("docs", Json.str "d")])])) = Except.ok e ∧
      e.homepage = Json.str (repoBrowseUrl "tool") :=
  ⟨_, rfl, homepage_defaults_to_repo "tool" [("links", Json.obj [("docs", Json.str "d")])] _
    (Or.inr ⟨[("docs", Json.str "d")], rfl, rfl⟩) rfl⟩

/-- C7: every entry the builder constructs has an empty `screenshots` list,
and its `tags` list starts with the entry's (post-default) category followed
by the manifest's declared tags in their original order (or nothing when no
tags are declared). -/
theorem entry_screenshots_tags (dir : String) (data : Json) (e : Entry)
    (h : load_plugin_manifest dir (Except.ok data) = Except.ok e) :
    e.screenshots = [] ∧
    ∀ fields, data = Json.obj fields →
      (fields.lookup "tags" = none → e.tags = [e.category]) ∧
      (∀ ts, fields.lookup "tags" = some (Json.arr ts) → e.tags = e.category :: ts) := by
  obtain ⟨fields2, heq, hobj⟩ := load_manifest_ok dir _ e h
  subst heq
  obtain ⟨_, _, _, _, _, hshots, _, htagsNone, htagsArr⟩ := load_obj_ok dir fields2 e hobj
  refine ⟨hshots, ?_⟩
  intro fields hf
  cases hf
  constructor
  · intro hnone
    exact htagsNone (lookup_none_hasKeyB _ _ hnone)
  · intro ts hsome
    refine htagsArr ts (lookup_some_hasKeyB _ _ _ hsome) ?_
    simp [jIndex, hsome]

/-- C7 witness: a concrete manifest with declared tags and a category. -/
theorem entry_screenshots_tags_witness :
    ∃ e, load_plugin_manifest "p"
        (Except.ok (Json.obj [("category", Json.str "media"),
          ("tags", Json.arr [Json.str "x", Json.str "y"])])) = Except.ok e ∧
      e.screenshots = [] ∧
      e.tags = e.category :: [Json.str "x", Json.str "y"] := by
  obtain ⟨e, he⟩ : ∃ e, load_plugin_manifest "p"
      (Except.ok (Json.obj [("category", Json.str "media"),
        ("tags", Json.arr [Json.str "x", Json.str "y"])])) = Except.ok e := ⟨_, rfl⟩
  have hc := entry_screenshots_tags "p" _ e he
  exact ⟨e, he, hc.1, (hc.2 _ rfl).2 [Json.str "x", Json.str "y"] rfl⟩

/-- C1 counterexample: two plugin directories whose manifests parse but lack
`name` load into entries with null names; sorting then raises an uncaught
`TypeError`, the run aborts and no registry document is written — the claim's
"runs to completion ... including ones lacking fields such as name" fails. -/
theorem generate_crashes_on_missing_names :
    generate_registry "2024-01-01T00:00:00Z"
      [("aplugin", Except.ok (Json.obj [])), ("bplugin", Except.ok (Json.obj []))] =
      Except.error "TypeError: \x27<\x27 not supported between instances" := rfl

/-- C1 (amended): generation completes with exactly one registry document
provided every successfully loaded entry has a string name (in particular
whenever all parsed manifests carry string names); per-plugin load failures
are recorded as `❌` diagnostics and skipped, never aborting the run, and
entries plus diagnostics account for every scanned manifest.  (The unamended
claim fails when a parsed manifest lacks `name`: the sort key is then `None`
and Python's sort raises, see the counterexample.) -/
theorem generate_best_effort_amended (t : String) (ms : List (String × Except String Json))
    (h : ∀ e ∈ (loadAll ms).1, ∃ s, e.name = Json.str s) :
    ∃ reg, generate_registry t ms = Except.ok (reg, (loadAll ms).2) ∧
      reg.plugins.length = (loadAll ms).1.length ∧
      reg.plugins.length + (loadAll ms).2.length = ms.length ∧
      ∀ p ∈ ms, ∀ msg, load_plugin_manifest p.1 p.2 = Except.error msg →
        ("❌ Error loading plugins/" ++ p.1 ++ "/plugin.json: " ++ msg) ∈ (loadAll ms).2 := by
  have hsort := pySortByName_eq (loadAll ms).1 (Or.inl (allNamesComparable_of_str _ h))
  refine ⟨Registry.mk "1.0.0" t REPO_URL (sortEntries (loadAll ms).1), ?_, ?_, ?_, ?_⟩
  · rw [generate_registry, hsort]
  · exact length_sortEntries _
  · rw [length_sortEntries]
    exact loadAll_length ms
  · intro p hp msg hmsg
    exact loadAll_error_mem ms p.1 p.2 msg hp hmsg

/-- C1 witness: one well-named manifest plus one malformed manifest — the
run completes, keeps the good entry and records one diagnostic. -/
theorem generate_best_effort_amended_witness :
    ∃ reg, generate_registry "T"
        [("good", Except.ok (Json.obj [("name", Json.str "G")])), ("bad", Except.error "boom")] =
        Except.ok (reg, (loadAll [("good", Except.ok (Json.obj [("name", Json.str "G")])),
          ("bad", Except.error "boom")]).2) ∧
      reg.plugins.length = (loadAll [("good", Except.ok (Json.obj [("name", Json.str "G")])),
        ("bad", Except.error "boom")]).1.length ∧
      reg.plugins.length + (loadAll [("good", Except.ok (Json.obj [("name", Json.str "G")])),
        ("bad", Except.error "boom")]).2.length = 2 ∧
      ∀ p ∈ [("good", Except.ok (Json.obj [("name", Json.str "G")])),
          ("bad", Except.error "boom")], ∀ msg,
        load_plugin_manifest p.1 p.2 = Except.error msg →
        ("❌ Error loading plugins/" ++ p.1 ++ "/plugin.json: " ++ msg) ∈
          (loadAll [("good", Except.ok (Json.obj [("name", Json.str "G")])),
            ("bad", Except.error "boom")]).2 :=
  generate_best_effort_amended "T"
    [("good", Except.ok (Json.obj [("name", Json.str "G")])), ("bad", Except.error "boom")]
    (by
      intro e he
      cases he with
      | head => exact ⟨"G", rfl⟩
      | tail _ h2 => cases h2)

/-- C2: from manifests that all load successfully (with string names and
string versions, as valid manifests have), generation succeeds with no
diagnostics, yields exactly one entry per manifest, sorted by name in
ascending case-sensitive order, and every entry's `repository_url` and
`download_url` follow the two literal URL templates instantiated with that
entry's directory slug and (manifest's) version string. -/
theorem generate_valid_roundtrip (t : String) (ms : List (String × Except String Json))
    (h : ∀ p ∈ ms, ∃ e v, load_plugin_manifest p.1 p.2 = Except.ok e ∧
      (∃ s, e.name = Json.str s) ∧ e.version = Json.str v) :
    ∃ reg, generate_registry t ms = Except.ok (reg, []) ∧
      reg.plugins.length = ms.length ∧
      namesAscending reg.plugins ∧
      ∀ e ∈ reg.plugins, ∃ slug parsed v, (slug, parsed) ∈ ms ∧
        load_plugin_manifest slug parsed = Except.ok e ∧
        e.version = Json.str v ∧
        e.repository_url = repoBrowseUrl slug ∧
        e.download_url = releaseDownloadUrl slug v := by
  obtain ⟨hdiag, hlen, hmem⟩ := loadAll_all_ok ms (by
    intro p hp
    obtain ⟨e, v, he, _, _⟩ := h p hp
    exact ⟨e, he⟩)
  have hstr : ∀ e ∈ (loadAll ms).1, ∃ s, e.name = Json.str s := by
    intro e he
    obtain ⟨p, hp, hload⟩ := hmem e he
    obtain ⟨e2, v, hload2, hname, hver⟩ := h p hp
    rw [hload2] at hload
    cases hload
    exact hname
  have hsort := pySortByName_eq (loadAll ms).1 (Or.inl (allNamesComparable_of_str _ hstr))
  refine ⟨Registry.mk "1.0.0" t REPO_URL (sortEntries (loadAll ms).1), ?_, ?_, ?_, ?_⟩
  · rw [generate_registry, hsort, hdiag]
  · rw [length_sortEntries]
    exact hlen
  · exact namesAscending_sortEntries _ hstr
  · intro e he
    have he' : e ∈ (loadAll ms).1 := (mem_sortEntries e _).mp he
    obtain ⟨p, hp, hload⟩ := hmem e he'
    obtain ⟨e2, v, hload2, hname, hver⟩ := h p hp
    rw [hload2] at hload
    cases hload
    obtain ⟨fields, hpe, hobj⟩ := load_manifest_parsed_ok p.1 p.2 e hload2
    obtain ⟨hv0, _, _, hrepo, hdl, _, _, _, _⟩ := load_obj_ok p.1 fields e hobj
    refine ⟨p.1, p.2, v, hp, hload2, hver, hrepo, ?_⟩
    rw [hdl, ← hv0, hver]
    rfl

/-- C2 witness: two concrete valid manifests come out sorted with the
template URLs. -/
theorem generate_valid_roundtrip_witness :
    ∃ reg, generate_registry "T"
        [("zeta", Except.ok (Json.obj [("name", Json.str "Beta"), ("version", Json.str "2.0.0")])),
         ("alpha", Except.ok (Json.obj [("name", Json.str "Alpha"), ("version", Json.str "1.2.3")]))] =
        Except.ok (reg, []) ∧
      reg.plugins.length = 2 ∧
      namesAscending reg.plugins ∧
      ∀ e ∈ reg.plugins, ∃ slug parsed v,
        (slug, parsed) ∈
          [("zeta", Except.ok (Json.obj [("name", Json.str "Beta"), ("version", Json.str "2.0.0")])),
           ("alpha", Except.ok (Json.obj [("name", Json.str "Alpha"), ("version", Json.str "1.2.3")]))] ∧
        load_plugin_manifest slug parsed = Except.ok e ∧
        e.version = Json.str v ∧
        e.repository_url = repoBrowseUrl slug ∧
        e.download_url = releaseDownloadUrl slug v :=
  generate_valid_roundtrip "T"
    [("zeta", Except.ok (Json.obj [("name", Json.str "Beta"), ("version", Json.str "2.0.0")])),
     ("alpha", Except.ok (Json.obj [("name", Json.str "Alpha"), ("version", Json.str "1.2.3")]))]
    (by
      intro p hp
      cases hp with
      | head => exact ⟨_, "2.0.0", rfl, ⟨"Beta", rfl⟩, rfl⟩
      | tail _ h2 =>
        cases h2 with
        | head => exact ⟨_, "1.2.3", rfl, ⟨"Alpha", rfl⟩, rfl⟩
        | tail _ h3 => cases h3)

/-- C4 counterexample: the version string "-1.0.0" fails the spec's
non-negative-integers rule (its first segment parses to a negative value), so
the claim demands a version warning — but the code's `int()`-based check
accepts "-1" and the validator emits no warning at all (the warnings list is
empty; the errors are the unrelated missing-field errors). -/
theorem version_negative_no_warning_cex :
    specVersionRule "-1.0.0" = false ∧
    validate_plugin_manifest (Except.ok (Json.obj [("version", Json.str "-1.0.0")])) =
      Except.ok ([missingFieldMsg "id", missingFieldMsg "name", missingFieldMsg "author",
        missingFieldMsg "description", missingFieldMsg "icon", missingFieldMsg "category"],
        []) :=
  ⟨rfl, rfl⟩

/-- C4 (amended): for a manifest whose `version` field holds a string, a
completed validation emits the version warning — and never an error — exactly
when the string does not split on `.` into at least three segments whose
first three are each accepted by Python's `int()` (which allows a sign,
surrounding whitespace and digit underscores; the spec's "non-negative" is
not enforced by the code, see the counterexample). -/
theorem version_warning_iff_semverB (fields : List (String × Json)) (v : String)
    (es ws : List String)
    (hv : fields.lookup "version" = some (Json.str v))
    (h : validate_plugin_manifest (Except.ok (Json.obj fields)) = Except.ok (es, ws)) :
    (versionWarningMsg (Json.str v) ∈ ws ↔ semverB v = false) ∧
    versionWarningMsg (Json.str v) ∉ es := by
  obtain ⟨me, ie, vw, ce, dw, nme, aw, hme, hie, hvw, hce, hdw, hnme, haw, hes, hws⟩ :=
    validate_obj_parts _ es ws h
  have hmeS : ∀ x ∈ me, ∃ f, x = missingFieldMsg f := by
    obtain ⟨me2, hme2, hmeShape⟩ := requiredFieldErrors_obj fields REQUIRED_FIELDS
    rw [hme] at hme2
    cases hme2
    exact hmeShape
  have hieS := idRuleErrors_obj_shape fields ie hie
  have hceS := categoryRuleErrors_obj_shape fields ce hce
  have hdwS := descriptionRuleWarnings_obj_shape fields dw hdw
  have hnmeS := nameRuleErrors_obj_shape fields nme hnme
  have hawS := authorRuleWarnings_obj_shape fields aw haw
  rw [versionRuleWarnings_str fields v hv] at hvw
  have hvwEq := Except.ok.inj hvw
  have hnotin_dw : versionWarningMsg (Json.str v) ∉ dw := by
    intro hmem
    rcases hdwS with rfl | ⟨n, rfl⟩ | ⟨n, rfl⟩
    · cases hmem
    · rw [List.mem_singleton] at hmem
      exact vw_ne_descShort (Json.str v) n hmem
    · rw [List.mem_singleton] at hmem
      exact vw_ne_descLong (Json.str v) n hmem
  have hnotin_aw : versionWarningMsg (Json.str v) ∉ aw := by
    intro hmem
    rcases hawS with rfl | rfl
    · cases hmem
    · rw [List.mem_singleton] at hmem
      exact vw_ne_author (Json.str v) hmem
  subst hes hws
  constructor
  · cases hsem : semverB v with
    | true =>
      have hvwNil : vw = [] := by rw [← hvwEq, hsem]; rfl
      constructor
      · intro hmem
        exfalso
        rw [hvwNil] at hmem
        rcases List.mem_append.mp hmem with h1 | h3
        · rcases List.mem_append.mp h1 with h2 | h2
          · cases h2
          · exact hnotin_dw h2
        · exact hnotin_aw h3
      · intro hfalse
        exact Bool.noConfusion hfalse
    | false =>
      have hvwOne : vw = [versionWarningMsg (Json.str v)] := by rw [← hvwEq, hsem]; rfl
      constructor
      · intro _
        rfl
      · intro _
        rw [hvwOne]
        exact List.mem_append.mpr (Or.inl (List.mem_append.mpr (Or.inl
          (List.mem_singleton.mpr rfl))))
  · intro hmem
    rcases List.mem_append.mp hmem with h1 | h4
    · rcases List.mem_append.mp h1 with h2 | h3
      · rcases List.mem_append.mp h2 with h5 | h6
        · obtain ⟨f, hf⟩ := hmeS _ h5
          exact vw_ne_missing (Json.str v) f hf
        · rcases hieS with rfl | ⟨w, rfl⟩
          · cases h6
          · rw [List.mem_singleton] at h6
            exact vw_ne_idErr (Json.str v) w h6
      · rcases hceS with rfl | ⟨w, rfl⟩
        · cases h3
        · rw [List.mem_singleton] at h3
          exact vw_ne_catErr (Json.str v) w h3
    · rcases hnmeS with rfl | rfl
      · cases h4
      · rw [List.mem_singleton] at h4
        exact vw_ne_nameErr (Json.str v) h4

/-- C4 witness: a concrete manifest with version "1.2" (two segments) gets
the warning among its warnings and never among its errors. -/
theorem version_warning_iff_semverB_witness :
    (versionWarningMsg (Json.str "1.2") ∈ [versionWarningMsg (Json.str "1.2")] ↔
      semverB "1.2" = false) ∧
    versionWarningMsg (Json.str "1.2") ∉
      [missingFieldMsg "id", missingFieldMsg "name", missingFieldMsg "author",
       missingFieldMsg "description", missingFieldMsg "icon", missingFieldMsg "category"] :=
  version_warning_iff_semverB [("version", Json.str "1.2")] "1.2"
    [missingFieldMsg "id", missingFieldMsg "name", missingFieldMsg "author",
     missingFieldMsg "description", missingFieldMsg "icon", missingFieldMsg "category"]
    [versionWarningMsg (Json.str "1.2")] rfl rfl

/-- C5: for a manifest with a `category` field, a completed validation
records exactly one category error — whose message carries the full valid
category listing — when the value is outside the fixed nine-element set, and
no category diagnostic at all (neither error nor warning) when it is in the
set. -/
theorem category_error_characterization (fields : List (String × Json)) (v : Json)
    (es ws : List String)
    (hv : fields.lookup "category" = some v)
    (h : validate_plugin_manifest (Except.ok (Json.obj fields)) = Except.ok (es, ws)) :
    (catInSetB v = false → es.count (categoryErrorMsg v) = 1) ∧
    (catInSetB v = true → categoryErrorMsg v ∉ es ∧ categoryErrorMsg v ∉ ws) := by
  obtain ⟨me, ie, vw, ce, dw, nme, aw, hme, hie, hvw, hce, hdw, hnme, haw, hes, hws⟩ :=
    validate_obj_parts _ es ws h
  have hmeS : ∀ x ∈ me, ∃ f, x = missingFieldMsg f := by
    obtain ⟨me2, hme2, hmeShape⟩ := requiredFieldErrors_obj fields REQUIRED_FIELDS
    rw [hme] at hme2
    cases hme2
    exact hmeShape
  have hieS := idRuleErrors_obj_shape fields ie hie
  have hvwS := versionRuleWarnings_obj_shape fields vw hvw
  have hdwS := descriptionRuleWarnings_obj_shape fields dw hdw
  have hnmeS := nameRuleErrors_obj_shape fields nme hnme
  have hawS := authorRuleWarnings_obj_shape fields aw haw
  rw [categoryRuleErrors_lookup fields v hv] at hce
  have hceEq := Except.ok.inj hce
  have hnotin_me : categoryErrorMsg v ∉ me := by
    intro hmem
    obtain ⟨f, hf⟩ := hmeS _ hmem
    exact ce_ne_missing v f hf
  have hnotin_ie : categoryErrorMsg v ∉ ie := by
    intro hmem
    rcases hieS with rfl | ⟨w, rfl⟩
    · cases hmem
    · rw [List.mem_singleton] at hmem
      exact ce_ne_idErr v w hmem
  have hnotin_nme : categoryErrorMsg v ∉ nme := by
    intro hmem
    rcases hnmeS with rfl | rfl
    · cases hmem
    · rw [List.mem_singleton] at hmem
      exact ce_ne_nameErr v hmem
  subst hes hws
  constructor
  · intro hout
    have hceL : ce = [categoryErrorMsg v] := by rw [← hceEq, hout]; rfl
    rw [hceL, List.count_append, List.count_append, List.count_append,
      List.count_eq_zero.mpr hnotin_me, List.count_eq_zero.mpr hnotin_ie,
      List.count_eq_zero.mpr hnotin_nme]
    simp
  · intro hin
    have hceN : ce = [] := by rw [← hceEq, hin]; rfl
    constructor
    · intro hmem
      rcases List.mem_append.mp hmem with h1 | h4
      · rcases List.mem_append.mp h1 with h2 | h3
        · rcases List.mem_append.mp h2 with h5 | h6
          · exact hnotin_me h5
          · exact hnotin_ie h6
        · rw [hceN] at h3
          cases h3
      · exact hnotin_nme h4
    · intro hmem
      rcases List.mem_append.mp hmem with h1 | h3
      · rcases List.mem_append.mp h1 with h2 | h5
        · rcases hvwS with rfl | ⟨w, rfl⟩
          · cases h2
          · rw [List.mem_singleton] at h2
            exact ce_ne_vw v w h2
        · rcases hdwS with rfl | ⟨n, rfl⟩ | ⟨n, rfl⟩
          · cases h5
          · rw [List.mem_singleton] at h5
            exact ce_ne_descShort v n h5
          · rw [List.mem_singleton] at h5
            exact ce_ne_descLong v n h5
      · rcases hawS with rfl | rfl
        · cases h3
        · rw [List.mem_singleton] at h3
          exact ce_ne_author v h3

/-- C5 witness: the out-of-set category "bogus" yields exactly one category
error in a concrete completed run. -/
theorem category_error_characterization_witness :
    (catInSetB (Json.str "bogus") = false →
      List.count (categoryErrorMsg (Json.str "bogus"))
        [missingFieldMsg "id", missingFieldMsg "name", missingFieldMsg "version",
         missingFieldMsg "author", missingFieldMsg "description", missingFieldMsg "icon",
         categoryErrorMsg (Json.str "bogus")] = 1) ∧
    (catInSetB (Json.str "bogus") = true →
      categoryErrorMsg (Json.str "bogus") ∉
        [missingFieldMsg "id", missingFieldMsg "name", missingFieldMsg "version",
         missingFieldMsg "author", missingFieldMsg "description", missingFieldMsg "icon",
         categoryErrorMsg (Json.str "bogus")] ∧
      categoryErrorMsg (Json.str "bogus") ∉ ([] : List String)) :=
  category_error_characterization [("category", Json.str "bogus")] (Json.str "bogus")
    [missingFieldMsg "id", missingFieldMsg "name", missingFieldMsg "version",
     missingFieldMsg "author", missingFieldMsg "description", missingFieldMsg "icon",
     categoryErrorMsg (Json.str "bogus")] [] rfl rfl
